import Mathlib

/-!
Verification development for the Sentry crash-video recording subsystem
(`plugin-dev/Source/Sentry/Private/SentryCrashVideoHandler.cpp`).

The handler drives an external video recorder keeping a circular buffer of
recent gameplay, persists a per-session metadata journal, recovers leftover
sessions on the next start, and prunes old video artifacts.

The embedding below models:
  * the file system as an explicit list of files (path, text lines, size,
    modification time) plus a set of directories;
  * the external capabilities (Sentry subsystem, RuntimeVideoRecorder) as an
    environment record of availability flags and query results;
  * the handler's member state (`bIsRecording`, `bCrashDetected`,
    `CurrentSessionVideoPath`, `MaxVideosToKeep`, `CurrentConfig`);
  * float arithmetic (config clamping, the bitrate lerp) over `ℚ`.

Side effects on the outside world (recorder start/stop, scope attachments,
bridge invocations) are recorded in an explicit `World` value so that theorems
can speak about what was handed to the recorder and the reporter.
-/

namespace SentryCrashVideo

/-- A file on disk: its path, its text content as a list of lines
(`FFileHelper::LoadFileToString` + `ParseIntoArrayLines` view), its size in
bytes and its modification timestamp. -/
structure FileEntry where
  path : String
  lines : List String
  size : Int
  mtime : Int

/-- The file system: a list of files plus a list of existing directories. -/
structure FS where
  files : List FileEntry
  dirs : List String

/-- Models `IPlatformFile::FileExists`. -/
def FS.fileExists (fs : FS) (p : String) : Bool :=
  fs.files.any (fun e => e.path == p)

/-- The entry stored at a path, if any (first match). -/
def FS.lookup (fs : FS) (p : String) : Option FileEntry :=
  fs.files.find? (fun e => e.path == p)

/-- Models `IPlatformFile::FileSize`: `-1` when the file does not exist. -/
def FS.fileSize (fs : FS) (p : String) : Int :=
  match fs.lookup p with
  | some e => e.size
  | none => -1

/-- Models `IPlatformFile::GetTimeStamp` (zero epoch for a missing file). -/
def FS.getTimeStamp (fs : FS) (p : String) : Int :=
  match fs.lookup p with
  | some e => e.mtime
  | none => 0

/-- Models `IPlatformFile::DeleteFile`: removes the file at `p`. -/
def FS.deleteFile (fs : FS) (p : String) : FS :=
  { fs with files := fs.files.filter (fun e => !(e.path == p)) }

/-- Models `IPlatformFile::DirectoryExists`. -/
def FS.dirExists (fs : FS) (d : String) : Bool :=
  fs.dirs.any (fun x => x == d)

/-- Models `IPlatformFile::CreateDirectoryTree` (the success case). -/
def FS.createDir (fs : FS) (d : String) : FS :=
  { fs with dirs := d :: fs.dirs }

/-- Models `FFileHelper::SaveStringToFile`: overwrites the file at `p` with the given
lines; the size of a small text write is abstracted as the line count. -/
def FS.writeFile (fs : FS) (p : String) (lns : List String) (mtime : Int) : FS :=
  { fs with files := ⟨p, lns, (lns.length : Int), mtime⟩ :: (fs.deleteFile p).files }

/-- Models `FFileHelper::LoadFileToString` (+ `ParseIntoArrayLines`). -/
def FS.readLines (fs : FS) (p : String) : Option (List String) :=
  (fs.lookup p).map (fun e => e.lines)

/-- A real file system has at most one file per path. -/
def FS.pathsNodup (fs : FS) : Prop :=
  (fs.files.map (fun e => e.path)).Nodup

instance (fs : FS) : Decidable fs.pathsNodup := by
  unfold FS.pathsNodup
  infer_instance

/-- Models `FString::StartsWith`, on the character data. -/
def strStartsWith (s pat : String) : Bool :=
  pat.data.isPrefixOf s.data

/-- Models `FString::RightChop n`: the string with the first `n` characters removed. -/
def strRightChop (s : String) (n : Nat) : String :=
  ⟨s.data.drop n⟩

/-- Does path `p` carry extension `ext` (`FindFilesRecursively` match)? -/
def hasExt (p ext : String) : Bool :=
  ext.data.isSuffixOf p.data

/-- Is path `p` located (recursively) under directory `dir`? -/
def isUnderDir (dir p : String) : Bool :=
  (dir ++ "/").data.isPrefixOf p.data

/-- Models `IPlatformFile::FindFilesRecursively` with an extension filter: the paths
of all files under `dir` whose path ends in `ext`. -/
def FS.findFilesRecursively (fs : FS) (dir ext : String) : List String :=
  (fs.files.filter (fun e => isUnderDir dir e.path && hasExt e.path ext)).map
    (fun e => e.path)

namespace FPaths

/-- Models `FPaths::Combine`. -/
def Combine (a b : String) : String := a ++ "/" ++ b

/-- Models `FPaths::GetCleanFilename`: the part after the final path separator. -/
def GetCleanFilename (p : String) : String :=
  ⟨((p.data.reverse.takeWhile (fun c => !(c == '/'))).reverse)⟩

/-- Models `FPaths::GetPath`: the part before the final path separator. -/
def GetPath (p : String) : String :=
  ⟨(((p.data.reverse.dropWhile (fun c => !(c == '/'))).drop 1).reverse)⟩

/-- Models `FPaths::GetBaseFilename`: the clean filename with its extension removed. -/
def GetBaseFilename (p : String) : String :=
  let f := (GetCleanFilename p).data
  if f.any (fun c => c == '.') then ⟨(((f.reverse.dropWhile (fun c => !(c == '.'))).drop 1).reverse)⟩
  else ⟨f⟩

end FPaths

namespace FMath

/-- Models `FMath::Clamp`. -/
def Clamp {α : Type} [LinearOrder α] (x lo hi : α) : α :=
  if x < lo then lo else if x < hi then x else hi

/-- Models `FMath::Lerp` on floats, modelled over `ℚ`. -/
def Lerp (a b t : ℚ) : ℚ := a + t * (b - a)

end FMath

/-- Models `FCrashVideoConfig` (SentryCrashVideoHandler.h): recording configuration.
Float fields are modelled over `ℚ`. -/
structure FCrashVideoConfig where
  LastSecondsToRecord : ℚ := 30
  TargetFPS : Int := 30
  Width : Int := 1280
  Height : Int := 720
  bRecordUI : Bool := true
  bEnableAudio : Bool := false
  QualityPreset : Int := 50

/-- The private member state of `USentryCrashVideoHandler`. -/
structure Handler where
  bIsRecording : Bool := false
  bCrashDetected : Bool := false
  bVideoPreAttached : Bool := false
  CurrentSessionVideoPath : String := ""
  MaxVideosToKeep : Int := 10
  CurrentConfig : FCrashVideoConfig := {}

/-- The external capabilities as observed during one operation: availability of
the Sentry subsystem and the recorder, the results of the fallible external
calls, and the ambient clock. -/
structure Env where
  sentryAvailable : Bool := true
  sentryEnabled : Bool := true
  recorderAvailable : Bool := true
  recorderStartOk : Bool := true
  attachmentCreateOk : Bool := true
  mkdirOk : Bool := true
  lastRecordingFilepath : String := ""
  nowTimestamp : String := "T"
  nowString : String := "T0"
  nowMtime : Int := 0

/-- The mutable outside world: the file system, whether the external recorder
is currently recording, the attachments added to the Sentry scope, the
invocations of the attachment bridge (`AttachVideoToSentry`), and the video
bitrates handed to `URuntimeVideoRecorder::StartRecording`. -/
structure World where
  fs : FS
  recorderActive : Bool := false
  attachments : List String := []
  bridgeCalls : List String := []
  recorderStartBitrates : List ℚ := []

/-- Models `GetCrashVideoDirectory`: `FPaths::Combine(ProjectSavedDir, "SentryCrashVideos")`;
the ambient saved directory is modelled as the constant `"Saved"`. -/
def crashVideoDir : String := FPaths.Combine "Saved" "SentryCrashVideos"

/-- Models `GenerateVideoFilename`: timestamp-derived mp4 path in the video directory. -/
def generateVideoFilename (env : Env) : String :=
  FPaths.Combine crashVideoDir ("crash_video_" ++ env.nowTimestamp ++ ".mp4")

/-- Models `GetMetadataFilePath`: the journal path derived from a session video path
(same base name, `.meta` extension); a timestamped fallback when no session
path is set. -/
def metadataFilePathFor (env : Env) (sessionVideoPath : String) : String :=
  if sessionVideoPath = "" then
    FPaths.Combine crashVideoDir ("crash_video_" ++ env.nowTimestamp ++ ".meta")
  else
    FPaths.Combine (FPaths.GetPath sessionVideoPath)
      (FPaths.GetBaseFilename sessionVideoPath ++ ".meta")

/-- Models `GetMetadataFilePath` on the handler's current session. -/
def Handler.metadataFilePath (h : Handler) (env : Env) : String :=
  metadataFilePathFor env h.CurrentSessionVideoPath

/-- Models `CreateCrashMetadataFile`: writes the `Key=Value` journal entry with
`Status=RECORDING` for the current session (no-op when no session path). -/
def createCrashMetadataFile (env : Env) (h : Handler) (fs : FS) : FS :=
  if h.CurrentSessionVideoPath = "" then fs
  else
    fs.writeFile (h.metadataFilePath env)
      ["VideoPath=" ++ h.CurrentSessionVideoPath,
       "Status=RECORDING",
       "StartTime=" ++ env.nowString,
       "Duration=" ++ toString h.CurrentConfig.LastSecondsToRecord,
       "FPS=" ++ toString h.CurrentConfig.TargetFPS,
       "Resolution=" ++ toString h.CurrentConfig.Width ++ "x" ++ toString h.CurrentConfig.Height]
      env.nowMtime

/-- Models `RemoveCrashMetadataFile`: deletes the journal entry if present. -/
def removeCrashMetadataFile (env : Env) (h : Handler) (fs : FS) : FS :=
  let metadataPath := h.metadataFilePath env
  if fs.fileExists metadataPath then fs.deleteFile metadataPath else fs

/-- Models `CleanupOldVideos` (the Retention Manager): collects the `.mp4` artifacts
under the video directory, and when there are more than `MaxVideosToKeep`,
deletes the oldest ones by modification time. `TArray::Sort` with the
timestamp comparator is modelled by an insertion sort on the timestamps. -/
def cleanupOldVideos (maxVideosToKeep : Int) (fs : FS) : FS :=
  if !(fs.dirExists crashVideoDir) then fs
  else
    let allVideoFiles := fs.findFilesRecursively crashVideoDir ".mp4"
    if (allVideoFiles.length : Int) ≤ maxVideosToKeep then fs
    else
      let sorted := allVideoFiles.insertionSort
        (fun a b => fs.getTimeStamp a ≤ fs.getTimeStamp b)
      let numToDelete := ((allVideoFiles.length : Int) - maxVideosToKeep).toNat
      (sorted.take numToDelete).foldl (fun acc p => acc.deleteFile p) fs

/-- The field extraction loop of `RecoverPreviousCrashVideos`: the last
`VideoPath=` / `CrashVideoPath=` / `Status=` lines win. -/
def parseMeta (lns : List String) : String × String × String :=
  lns.foldl
    (fun (acc : String × String × String) line =>
      if strStartsWith line "VideoPath=" then (strRightChop line 10, acc.2.1, acc.2.2)
      else if strStartsWith line "CrashVideoPath=" then (acc.1, strRightChop line 15, acc.2.2)
      else if strStartsWith line "Status=" then (acc.1, acc.2.1, strRightChop line 7)
      else acc)
    ("", "", "")

/-- The body of the per-entry loop of `RecoverPreviousCrashVideos`: reconciles
one journal entry (both file-size branches of the source delete the artifact,
so they are collapsed). An unreadable entry is skipped. -/
def processMetadataFile (fs : FS) (metadataPath : String) : FS :=
  match fs.readLines metadataPath with
  | none => fs
  | some lns =>
    let parsed := parseMeta lns
    let videoPath := parsed.1
    let crashVideoPath := parsed.2.1
    let status := parsed.2.2
    if status = "CRASH_RECORDED" then
      let crashRecoveryVideoPath := crashVideoPath ++ "_crash_recovery.mp4"
      let fs1 := if fs.fileExists crashRecoveryVideoPath then fs.deleteFile crashRecoveryVideoPath else fs
      fs1.deleteFile metadataPath
    else if videoPath = "" then
      fs.deleteFile metadataPath
    else
      let fs1 := if fs.fileExists videoPath then fs.deleteFile videoPath else fs
      fs1.deleteFile metadataPath

/-- Models `RecoverPreviousCrashVideos` (the Recovery Scanner): reconciles every
journal entry under the video directory. -/
def recoverPreviousCrashVideos (fs : FS) : FS :=
  if !(fs.dirExists crashVideoDir) then fs
  else
    let metadataFiles := fs.findFilesRecursively crashVideoDir ".meta"
    if metadataFiles.length = 0 then fs
    else metadataFiles.foldl processMetadataFile fs

/-- The video bitrate computed from the quality preset
(`FMath::Lerp(2000000, 10000000, QualityPreset / 100.0f)`). -/
def videoBitrate (qualityPreset : Int) : ℚ :=
  FMath.Lerp 2000000 10000000 ((qualityPreset : ℚ) / 100)

/-- The clamping of the user config performed by `StartContinuousRecording`
(lines 85-88 of the source). -/
def clampConfig (config : FCrashVideoConfig) : FCrashVideoConfig :=
  { config with
    LastSecondsToRecord := FMath.Clamp config.LastSecondsToRecord 5 600,
    TargetFPS := FMath.Clamp config.TargetFPS 10 120,
    QualityPreset := FMath.Clamp config.QualityPreset 0 100 }

/-- Models the stop of an unrelated in-progress recording performed by
`StartContinuousRecording` (lines 76-82 of the source). -/
def stopUnrelatedRecording (w : World) : World :=
  if w.recorderActive then { w with recorderActive := false } else w

/-- Models the video-directory creation step of `StartContinuousRecording`
(lines 90-100): succeeds when the directory already exists or
`CreateDirectoryTree` succeeds. -/
def ensureCrashVideoDir (env : Env) (w : World) : Bool × World :=
  if w.fs.dirExists crashVideoDir then (true, w)
  else if env.mkdirOk then (true, { w with fs := w.fs.createDir crashVideoDir })
  else (false, w)

/-- Models the `URuntimeVideoRecorder::StartRecording` invocation of
`StartContinuousRecording` (lines 105-123): the encoder bitrate handed to the
recorder is recorded in the world. -/
def invokeStartRecording (h2 : Handler) (w : World) : World :=
  { w with recorderStartBitrates :=
      videoBitrate h2.CurrentConfig.QualityPreset :: w.recorderStartBitrates }

/-- Models the post-start bookkeeping of `StartContinuousRecording`
(lines 131-147): the recorder is now active, the recovery scanner runs, the
journal entry is written, the retention cleanup runs. -/
def startRecordingSuccess (env : Env) (h3 : Handler) (w : World) : World :=
  let w4 := { w with recorderActive := true }
  let w5 := { w4 with fs := recoverPreviousCrashVideos w4.fs }
  let w6 := { w5 with fs := createCrashMetadataFile env h3 w5.fs }
  { w6 with fs := cleanupOldVideos h3.MaxVideosToKeep w6.fs }

/-- Models `StartContinuousRecording`: returns the success flag together with the
updated handler and world. Mirrors the source order: already-recording check,
Sentry check, recorder check, stop of an unrelated recording, config clamp,
directory creation, filename generation, `StartRecording` call (its bitrate is
recorded in the world), then on success: recovery scan, journal write,
retention cleanup. -/
def startContinuousRecording (env : Env) (h : Handler) (w : World)
    (config : FCrashVideoConfig) : Bool × Handler × World :=
  if h.bIsRecording then (false, h, w)
  else if !(env.sentryAvailable && env.sentryEnabled) then (false, h, w)
  else if !env.recorderAvailable then (false, h, w)
  else
    let w1 := stopUnrelatedRecording w
    let h1 := { h with CurrentConfig := clampConfig config }
    let dirStep := ensureCrashVideoDir env w1
    if !dirStep.1 then (false, h1, dirStep.2)
    else
      let h2 := { h1 with CurrentSessionVideoPath := generateVideoFilename env }
      let w3 := invokeStartRecording h2 dirStep.2
      if !env.recorderStartOk then (false, h2, w3)
      else
        let h3 := { h2 with bIsRecording := true, bCrashDetected := false }
        (true, h3, startRecordingSuccess env h3 w3)

/-- Models `StopContinuousRecording`: no-op when idle; otherwise stops the recorder,
clears the recording flag, deletes the journal entry on a clean (non-crash)
stop, and clears the session path. -/
def stopContinuousRecording (env : Env) (h : Handler) (w : World) :
    Handler × World :=
  if !h.bIsRecording then (h, w)
  else
    let w1 := if env.recorderAvailable && w.recorderActive then
      { w with recorderActive := false } else w
    let h1 := { h with bIsRecording := false }
    let w2 := if !h1.bCrashDetected then
      { w1 with fs := removeCrashMetadataFile env h1 w1.fs } else w1
    let h2 := { h1 with CurrentSessionVideoPath := "" }
    (h2, w2)

/-- Models `FinalizeAndSaveVideo`: stops the recorder and verifies the produced
artifact exists with non-zero size; returns its path, or the empty string on
the `EmptyOrMissingArtifact` failure. -/
def finalizeAndSaveVideo (env : Env) (w : World) : String × World :=
  if !(env.recorderAvailable && w.recorderActive) then ("", w)
  else
    let w1 := { w with recorderActive := false }
    let videoPath := env.lastRecordingFilepath
    if w1.fs.fileExists videoPath then
      if 0 < w1.fs.fileSize videoPath then (videoPath, w1) else ("", w1)
    else ("", w1)

/-- Models `AttachVideoToSentry` (the Attachment Bridge): every invocation is recorded
in `bridgeCalls`; on success the path is added to the scope attachments. -/
def attachVideoToSentry (env : Env) (videoPath : String) (w : World) :
    Bool × World :=
  let w0 := { w with bridgeCalls := videoPath :: w.bridgeCalls }
  if videoPath = "" then (false, w0)
  else if !(env.sentryAvailable && env.sentryEnabled) then (false, w0)
  else if !(w0.fs.fileExists videoPath) then (false, w0)
  else if !env.attachmentCreateOk then (false, w0)
  else (true, { w0 with attachments := videoPath :: w0.attachments })

/-- Models `CaptureAndAttachVideo`: finalize the current recording and attach the
artifact; empty result on any failure. The handler members are untouched. -/
def captureAndAttachVideo (env : Env) (h : Handler) (w : World) :
    String × Handler × World :=
  if !h.bIsRecording then ("", h, w)
  else
    let r := finalizeAndSaveVideo env w
    let videoPath := r.1
    if videoPath ≠ "" then
      let a := attachVideoToSentry env videoPath r.2
      if a.1 then (videoPath, h, a.2) else ("", h, a.2)
    else ("", h, r.2)

/-- Models `SetMaxVideosToKeep`: clamps to a minimum of 1. -/
def setMaxVideosToKeep (h : Handler) (maxVideos : Int) : Handler :=
  { h with MaxVideosToKeep := max 1 maxVideos }

/-- Well-formedness of the journal entries on disk: every `.meta` file
references either no video or an `.mp4` artifact (which is what
`CreateCrashMetadataFile` always writes). -/
def wellFormedMetas (fs : FS) : Prop :=
  ∀ e ∈ fs.files, hasExt e.path ".meta" = true →
    (parseMeta e.lines).1 = "" ∨ hasExt ((parseMeta e.lines).1) ".mp4" = true

instance (fs : FS) : Decidable (wellFormedMetas fs) := by
  unfold wellFormedMetas
  infer_instance

/-! ### Concrete scenarios used by witnesses and counterexamples -/

/-- A handler with an active session. -/
def handlerRecording : Handler :=
  { bIsRecording := true,
    CurrentSessionVideoPath := "Saved/SentryCrashVideos/v.mp4" }

/-- A world whose video directory exists and is empty. -/
def worldEmptyDir : World :=
  { fs := { files := [], dirs := ["Saved/SentryCrashVideos"] } }

/-- An environment whose recorder refuses to start. -/
def envRefused : Env := { recorderStartOk := false }

/-- An out-of-range configuration (all three bounded fields outside range). -/
def cfgOutOfRange : FCrashVideoConfig :=
  { LastSecondsToRecord := 10000, TargetFPS := 500, QualityPreset := 200 }

/-- An environment whose last recording file path points at `out.mp4`. -/
def envEmptyOut : Env :=
  { lastRecordingFilepath := "Saved/SentryCrashVideos/o.mp4" }

/-- A recording world whose produced artifact `out.mp4` is zero-byte. -/
def worldEmptyOut : World :=
  { fs := { files := [⟨"Saved/SentryCrashVideos/o.mp4", [], 0, 3⟩],
            dirs := ["Saved/SentryCrashVideos"] },
    recorderActive := true }

/-- An environment whose last recording file path matches the active session. -/
def envCap : Env :=
  { lastRecordingFilepath := "Saved/SentryCrashVideos/v.mp4" }

/-- A file system holding the active session's non-empty artifact and its
`Status=RECORDING` journal entry. -/
def fsCap : FS :=
  { files :=
      [⟨"Saved/SentryCrashVideos/v.mp4", [], 5000, 7⟩,
       ⟨"Saved/SentryCrashVideos/v.meta",
        ["VideoPath=Saved/SentryCrashVideos/v.mp4",
         "Status=RECORDING"], 2, 7⟩],
    dirs := ["Saved/SentryCrashVideos"] }

/-- A recording world over `fsCap`. -/
def worldCap : World := { fs := fsCap, recorderActive := true }

/-- The file system of the C1 counterexample: two artifacts, the currently
active session owning the oldest one. -/
def fsTwoVids : FS :=
  { files := [⟨"Saved/SentryCrashVideos/old.mp4", [], 100, 0⟩,
              ⟨"Saved/SentryCrashVideos/new.mp4", [], 100, 10⟩],
    dirs := ["Saved/SentryCrashVideos"] }

/-- A handler recording to `old.mp4` with the retention cap set to 1. -/
def handlerKeepOne : Handler :=
  setMaxVideosToKeep
    { bIsRecording := true,
      CurrentSessionVideoPath := "Saved/SentryCrashVideos/old.mp4" } 1

/-- The file system of the C5 witness: three artifacts with distinct ages. -/
def fsThreeVids : FS :=
  { files := [⟨"Saved/SentryCrashVideos/a.mp4", [], 100, 5⟩,
              ⟨"Saved/SentryCrashVideos/b.mp4", [], 100, 1⟩,
              ⟨"Saved/SentryCrashVideos/c.mp4", [], 100, 9⟩],
    dirs := ["Saved/SentryCrashVideos"] }

/-- The journal entry of the C8 witness. -/
def metaEntryA : FileEntry :=
  ⟨"Saved/SentryCrashVideos/a.meta",
   ["VideoPath=Saved/SentryCrashVideos/a.mp4", "Status=RECORDING"], 2, 0⟩

/-- The file system of the C8 witness: a leftover `Status=RECORDING` journal
entry together with its referenced non-empty video file. -/
def fsRecover : FS :=
  { files := [metaEntryA, ⟨"Saved/SentryCrashVideos/a.mp4", [], 100, 5⟩],
    dirs := ["Saved/SentryCrashVideos"] }

/-! ### Helper lemmas -/

theorem mem_deleteFile {fs : FS} {p : String} {e : FileEntry} :
    e ∈ (fs.deleteFile p).files ↔ e ∈ fs.files ∧ e.path ≠ p := by
  unfold FS.deleteFile
  simp [List.mem_filter]

theorem fileExists_eq_true_iff {fs : FS} {q : String} :
    fs.fileExists q = true ↔ ∃ e ∈ fs.files, e.path = q := by
  unfold FS.fileExists
  simp [List.any_eq_true]

theorem fileExists_deleteFile_self (fs : FS) (p : String) :
    (fs.deleteFile p).fileExists p = false := by
  rw [Bool.eq_false_iff]
  intro hex
  rcases fileExists_eq_true_iff.mp hex with ⟨e, he, hp⟩
  exact (mem_deleteFile.mp he).2 hp

theorem fileExists_false_of_subset {fs fs' : FS} {q : String}
    (hsub : ∀ e, e ∈ fs'.files → e ∈ fs.files)
    (hq : fs.fileExists q = false) : fs'.fileExists q = false := by
  rw [Bool.eq_false_iff]
  intro hex
  rcases fileExists_eq_true_iff.mp hex with ⟨e, he, hp⟩
  rw [Bool.eq_false_iff] at hq
  exact hq (fileExists_eq_true_iff.mpr ⟨e, hsub e he, hp⟩)

theorem removeCrashMetadataFile_removes (env : Env) (h : Handler) (fs : FS) :
    (removeCrashMetadataFile env h fs).fileExists (h.metadataFilePath env) = false := by
  unfold removeCrashMetadataFile
  by_cases hex : fs.fileExists (h.metadataFilePath env) = true
  · simp only [hex, if_true]
    exact fileExists_deleteFile_self fs (h.metadataFilePath env)
  · rw [Bool.not_eq_true] at hex
    simp [hex]

theorem Clamp_mem {α : Type} [LinearOrder α] (x lo hi : α) (h : lo ≤ hi) :
    lo ≤ FMath.Clamp x lo hi ∧ FMath.Clamp x lo hi ≤ hi := by
  unfold FMath.Clamp
  split_ifs with h1 h2
  · exact ⟨le_refl _, h⟩
  · exact ⟨le_of_not_lt h1, le_of_lt h2⟩
  · exact ⟨h, le_refl _⟩

theorem Clamp_eq_self {α : Type} [LinearOrder α] (x lo hi : α) (h1 : lo ≤ x) (h2 : x ≤ hi) :
    FMath.Clamp x lo hi = x := by
  unfold FMath.Clamp
  split_ifs with ha hb
  · exact absurd h1 (not_le_of_lt ha)
  · rfl
  · exact (le_antisymm h2 (le_of_not_lt hb)).symm

theorem stopUnrelated_fs (w : World) : (stopUnrelatedRecording w).fs = w.fs := by
  unfold stopUnrelatedRecording
  split_ifs <;> rfl

theorem stopUnrelated_bitrates (w : World) :
    (stopUnrelatedRecording w).recorderStartBitrates = w.recorderStartBitrates := by
  unfold stopUnrelatedRecording
  split_ifs <;> rfl

theorem ensureDir_fst (env : Env) (w : World) :
    (ensureCrashVideoDir env w).1 =
      (w.fs.dirExists crashVideoDir || env.mkdirOk) := by
  unfold ensureCrashVideoDir
  cases hdir : w.fs.dirExists crashVideoDir <;> cases hmk : env.mkdirOk <;>
    simp [hdir, hmk]

theorem ensureDir_files (env : Env) (w : World) :
    ((ensureCrashVideoDir env w).2).fs.files = w.fs.files := by
  unfold ensureCrashVideoDir FS.createDir
  split_ifs <;> rfl

theorem ensureDir_snd_of_dir (env : Env) (w : World)
    (hdir : w.fs.dirExists crashVideoDir = true) :
    (ensureCrashVideoDir env w).2 = w := by
  unfold ensureCrashVideoDir
  simp [hdir]

/-- The success flag of `StartContinuousRecording` depends only on the
handler's recording flag, the capability availability, the directory state and
the recorder's answer — never on the configuration values. -/
theorem start_ret (env : Env) (h : Handler) (w : World) (cfg : FCrashVideoConfig) :
    (startContinuousRecording env h w cfg).1 =
      (!h.bIsRecording && ((env.sentryAvailable && env.sentryEnabled) &&
        (env.recorderAvailable &&
          ((w.fs.dirExists crashVideoDir || env.mkdirOk) && env.recorderStartOk)))) := by
  have hd1 : (ensureCrashVideoDir env (stopUnrelatedRecording w)).1 =
      (w.fs.dirExists crashVideoDir || env.mkdirOk) := by
    rw [ensureDir_fst, stopUnrelated_fs]
  cases hb : h.bIsRecording
  · cases hsase : env.sentryAvailable && env.sentryEnabled
    · simp [startContinuousRecording, hb, hsase]
    · cases hra : env.recorderAvailable
      · simp [startContinuousRecording, hb, hsase, hra]
      · cases hdm : w.fs.dirExists crashVideoDir || env.mkdirOk
        · simp [startContinuousRecording, hb, hsase, hra, hd1, hdm]
        · cases hro : env.recorderStartOk <;>
            simp [startContinuousRecording, hb, hsase, hra, hd1, hdm, hro]
  · simp [startContinuousRecording, hb]

theorem foldl_deleteFile_sublist (L : List String) (fs : FS) :
    ((L.foldl (fun acc p => acc.deleteFile p) fs).files).Sublist fs.files := by
  induction L generalizing fs with
  | nil => exact List.Sublist.refl _
  | cons p L ih =>
    exact (ih (fs.deleteFile p)).trans (List.filter_sublist _)

theorem mem_foldl_deleteFile {L : List String} {fs : FS} {e : FileEntry} :
    e ∈ (L.foldl (fun acc p => acc.deleteFile p) fs).files ↔
      e ∈ fs.files ∧ e.path ∉ L := by
  induction L generalizing fs with
  | nil => simp
  | cons p L ih =>
    rw [List.foldl_cons, ih, mem_deleteFile]
    simp only [List.mem_cons]
    tauto

theorem fileExists_foldl_deleteFile {L : List String} {fs : FS} {q : String} :
    (L.foldl (fun acc p => acc.deleteFile p) fs).fileExists q = true ↔
      fs.fileExists q = true ∧ q ∉ L := by
  rw [fileExists_eq_true_iff]
  constructor
  · rintro ⟨e, he, hp⟩
    rcases mem_foldl_deleteFile.mp he with ⟨hin, hnin⟩
    exact ⟨fileExists_eq_true_iff.mpr ⟨e, hin, hp⟩, hp ▸ hnin⟩
  · rintro ⟨hex, hnin⟩
    rcases fileExists_eq_true_iff.mp hex with ⟨e, hin, hp⟩
    exact ⟨e, mem_foldl_deleteFile.mpr ⟨hin, hp ▸ hnin⟩, hp⟩

theorem pathsNodup_of_sublist {fs fs' : FS} (h : fs'.files.Sublist fs.files)
    (hnd : fs.pathsNodup) : fs'.pathsNodup := by
  unfold FS.pathsNodup at *
  exact (h.map (fun e => e.path)).nodup hnd

theorem length_le_filter_path_add_one {l : List FileEntry} {p : String}
    (hnd : (l.map (fun e => e.path)).Nodup) :
    l.length ≤ (l.filter (fun e => !(e.path == p))).length + 1 := by
  induction l with
  | nil => simp
  | cons e t ih =>
    rw [List.map_cons, List.nodup_cons] at hnd
    by_cases he : e.path = p
    · have ht : t.filter (fun x => !(x.path == p)) = t := by
        apply List.filter_eq_self.mpr
        intro x hx
        simp only [Bool.not_eq_eq_eq_not, Bool.not_true, beq_eq_false_iff_ne, ne_eq]
        intro hxp
        exact hnd.1 (List.mem_map.mpr ⟨x, hx, (hxp.trans he.symm)⟩)
      have hdrop : (!(e.path == p)) = false := by simp [he]
      simp [List.filter_cons, hdrop, ht]
    · have hkeep : (!(e.path == p)) = true := by simp [he]
      simp only [List.filter_cons, hkeep, if_true, List.length_cons]
      have := ih hnd.2
      omega

theorem length_foldl_deleteFile (L : List String) (fs : FS) (hnd : fs.pathsNodup) :
    fs.files.length ≤ ((L.foldl (fun acc p => acc.deleteFile p) fs).files).length + L.length := by
  induction L generalizing fs with
  | nil => simp
  | cons p L ih =>
    have h1 : fs.files.length ≤ (fs.deleteFile p).files.length + 1 :=
      length_le_filter_path_add_one hnd
    have h2 := ih (fs.deleteFile p)
      (pathsNodup_of_sublist (List.filter_sublist _) hnd)
    simp only [List.foldl_cons, List.length_cons]
    omega

theorem cleanup_eq_of_nodir {k : ℤ} {fs : FS}
    (hd : fs.dirExists crashVideoDir = false) : cleanupOldVideos k fs = fs := by
  unfold cleanupOldVideos
  rw [hd]
  rfl

theorem cleanup_eq_of_le {k : ℤ} {fs : FS}
    (hle : ((fs.findFilesRecursively crashVideoDir ".mp4").length : ℤ) ≤ k) :
    cleanupOldVideos k fs = fs := by
  unfold cleanupOldVideos
  cases hd : fs.dirExists crashVideoDir
  · rfl
  · simp only [Bool.not_true, Bool.false_eq_true, if_false]
    rw [if_pos hle]

theorem cleanup_eq_of_gt {k : ℤ} {fs : FS}
    (hd : fs.dirExists crashVideoDir = true)
    (hkn : k < ((fs.findFilesRecursively crashVideoDir ".mp4").length : ℤ)) :
    cleanupOldVideos k fs =
      ((((fs.findFilesRecursively crashVideoDir ".mp4").insertionSort
          (fun a b => fs.getTimeStamp a ≤ fs.getTimeStamp b)).take
          ((((fs.findFilesRecursively crashVideoDir ".mp4").length : ℤ) - k).toNat)).foldl
        (fun acc p => acc.deleteFile p) fs) := by
  unfold cleanupOldVideos
  rw [hd]
  simp only [Bool.not_true, Bool.false_eq_true, if_false]
  rw [if_neg (not_le.mpr hkn)]

theorem cleanup_sublist (k : ℤ) (fs : FS) :
    ((cleanupOldVideos k fs).files).Sublist fs.files := by
  cases hd : fs.dirExists crashVideoDir
  · rw [cleanup_eq_of_nodir hd]
  · by_cases hle : ((fs.findFilesRecursively crashVideoDir ".mp4").length : ℤ) ≤ k
    · rw [cleanup_eq_of_le hle]
    · rw [cleanup_eq_of_gt hd (not_le.mp hle)]
      exact foldl_deleteFile_sublist _ _

theorem mem_findFilesRecursively {fs : FS} {dir ext p : String} :
    p ∈ fs.findFilesRecursively dir ext ↔
      ∃ e ∈ fs.files, e.path = p ∧ isUnderDir dir p = true ∧ hasExt p ext = true := by
  unfold FS.findFilesRecursively
  simp only [List.mem_map, List.mem_filter, Bool.and_eq_true]
  constructor
  · rintro ⟨e, ⟨he, hu, hx⟩, hp⟩
    exact ⟨e, he, hp, hp ▸ hu, hp ▸ hx⟩
  · rintro ⟨e, he, hp, hu, hx⟩
    exact ⟨e, ⟨he, hp ▸ hu, hp ▸ hx⟩, hp⟩

theorem findFiles_nodup {fs : FS} (hnd : fs.pathsNodup) (dir ext : String) :
    (fs.findFilesRecursively dir ext).Nodup := by
  unfold FS.findFilesRecursively FS.pathsNodup at *
  exact List.Nodup.sublist ((List.filter_sublist _).map (fun e : FileEntry => e.path)) hnd

theorem fileExists_of_mem_findFiles {fs : FS} {dir ext p : String}
    (hm : p ∈ fs.findFilesRecursively dir ext) : fs.fileExists p = true := by
  rcases mem_findFilesRecursively.mp hm with ⟨e, he, hp, -, -⟩
  exact fileExists_eq_true_iff.mpr ⟨e, he, hp⟩

theorem hasExt_append_mp4 (c : String) :
    hasExt (c ++ "_crash_recovery.mp4") ".mp4" = true := by
  unfold hasExt
  apply List.isSuffixOf_iff_suffix.mpr
  rw [String.data_append]
  exact (List.isSuffixOf_iff_suffix.mp (by decide) :
    (".mp4".data) <:+ ("_crash_recovery.mp4".data)).trans (List.suffix_append _ _)

theorem mp4_ne_meta {a b : String} (ha : hasExt a ".mp4" = true)
    (hb : hasExt b ".meta" = true) : a ≠ b := by
  intro hEq
  subst hEq
  unfold hasExt at ha hb
  have ha' := List.isSuffixOf_iff_suffix.mp ha
  have hb' := List.isSuffixOf_iff_suffix.mp hb
  rcases List.suffix_or_suffix_of_suffix ha' hb' with hcase | hcase
  · exact absurd (List.isSuffixOf_iff_suffix.mpr hcase) (by decide)
  · exact absurd (List.isSuffixOf_iff_suffix.mpr hcase) (by decide)

theorem find_entry_eq {l : List FileEntry} {m : FileEntry}
    (hnd : (l.map (fun e => e.path)).Nodup) (hm : m ∈ l) :
    l.find? (fun e => e.path == m.path) = some m := by
  induction l with
  | nil => cases hm
  | cons e t ih =>
    rw [List.map_cons, List.nodup_cons] at hnd
    rcases List.mem_cons.mp hm with hEq | ht
    · subst hEq
      exact List.find?_cons_of_pos _ (by simp)
    · have hne : (e.path == m.path) = false := by
        apply beq_eq_false_iff_ne.mpr
        intro hEq
        exact hnd.1 (List.mem_map.mpr ⟨m, ht, hEq.symm⟩)
      rw [List.find?_cons_of_neg _ (by simp [hne]), ih hnd.2 ht]

theorem lookup_eq_of_mem {fs : FS} {m : FileEntry} (hnd : fs.pathsNodup)
    (hm : m ∈ fs.files) : fs.lookup m.path = some m := by
  unfold FS.lookup
  unfold FS.pathsNodup at hnd
  exact find_entry_eq hnd hm

theorem readLines_some {fs : FS} {l : String} {lns : List String}
    (hr : fs.readLines l = some lns) :
    ∃ e, e ∈ fs.files ∧ e.path = l ∧ e.lines = lns := by
  unfold FS.readLines FS.lookup at hr
  cases hfind : fs.files.find? (fun e => e.path == l) with
  | none => rw [hfind] at hr; simp at hr
  | some e =>
    rw [hfind] at hr
    have hmem := List.mem_of_find?_eq_some hfind
    have hbeq := List.find?_some hfind
    exact ⟨e, hmem, by simpa using hbeq, by simpa using hr⟩

theorem deleteFile_sublist (fs : FS) (p : String) :
    ((fs.deleteFile p).files).Sublist fs.files :=
  List.filter_sublist _

theorem processMetadataFile_sublist (fs : FS) (p : String) :
    ((processMetadataFile fs p).files).Sublist fs.files := by
  unfold processMetadataFile
  cases hr : fs.readLines p with
  | none => exact List.Sublist.refl _
  | some lns =>
    dsimp only
    by_cases hcr : (parseMeta lns).2.2 = "CRASH_RECORDED"
    · rw [if_pos hcr]
      by_cases hex : fs.fileExists ((parseMeta lns).2.1 ++ "_crash_recovery.mp4") = true
      · rw [if_pos hex]
        exact (deleteFile_sublist _ _).trans (deleteFile_sublist _ _)
      · rw [if_neg hex]
        exact deleteFile_sublist _ _
    · rw [if_neg hcr]
      by_cases hvpe : (parseMeta lns).1 = ""
      · rw [if_pos hvpe]
        exact deleteFile_sublist _ _
      · rw [if_neg hvpe]
        by_cases hex : fs.fileExists ((parseMeta lns).1) = true
        · rw [if_pos hex]
          exact (deleteFile_sublist _ _).trans (deleteFile_sublist _ _)
        · rw [if_neg hex]
          exact deleteFile_sublist _ _

theorem foldl_process_sublist (L : List String) (fs : FS) :
    ((L.foldl processMetadataFile fs).files).Sublist fs.files := by
  induction L generalizing fs with
  | nil => exact List.Sublist.refl _
  | cons p L ih =>
    exact (ih (processMetadataFile fs p)).trans (processMetadataFile_sublist fs p)

theorem mem_processMetadataFile_of_ne {fs : FS} {l : String} {m : FileEntry}
    (hm : m ∈ fs.files)
    (hl : m.path ≠ l)
    (hmp4 : ∀ lns, fs.readLines l = some lns →
      (parseMeta lns).1 = "" ∨ hasExt ((parseMeta lns).1) ".mp4" = true)
    (hext : hasExt m.path ".meta" = true) :
    m ∈ (processMetadataFile fs l).files := by
  unfold processMetadataFile
  cases hr : fs.readLines l with
  | none => exact hm
  | some lns =>
    have hwfe := hmp4 lns hr
    dsimp only
    by_cases hcr : (parseMeta lns).2.2 = "CRASH_RECORDED"
    · rw [if_pos hcr]
      refine mem_deleteFile.mpr ⟨?_, hl⟩
      by_cases hex : fs.fileExists ((parseMeta lns).2.1 ++ "_crash_recovery.mp4") = true
      · rw [if_pos hex]
        exact mem_deleteFile.mpr ⟨hm, Ne.symm (mp4_ne_meta (hasExt_append_mp4 _) hext)⟩
      · rw [if_neg hex]
        exact hm
    · rw [if_neg hcr]
      by_cases hvpe : (parseMeta lns).1 = ""
      · rw [if_pos hvpe]
        exact mem_deleteFile.mpr ⟨hm, hl⟩
      · rw [if_neg hvpe]
        have hmp : hasExt ((parseMeta lns).1) ".mp4" = true := hwfe.resolve_left hvpe
        refine mem_deleteFile.mpr ⟨?_, hl⟩
        by_cases hex : fs.fileExists ((parseMeta lns).1) = true
        · rw [if_pos hex]
          exact mem_deleteFile.mpr ⟨hm, Ne.symm (mp4_ne_meta hmp hext)⟩
        · rw [if_neg hex]
          exact hm

theorem recover_loop (fsOrig : FS) (m : FileEntry)
    (hwf : wellFormedMetas fsOrig)
    (hstatus : (parseMeta m.lines).2.2 ≠ "CRASH_RECORDED")
    (hvp : (parseMeta m.lines).1 ≠ "")
    (hext : hasExt m.path ".meta" = true) :
    ∀ (L : List String) (fs0 : FS),
      (∀ e, e ∈ fs0.files → e ∈ fsOrig.files) →
      fs0.pathsNodup →
      (∀ l ∈ L, hasExt l ".meta" = true) →
      m ∈ fs0.files →
      m.path ∈ L →
      (L.foldl processMetadataFile fs0).fileExists ((parseMeta m.lines).1) = false ∧
      (L.foldl processMetadataFile fs0).fileExists m.path = false := by
  intro L
  induction L with
  | nil =>
    intro fs0 _ _ _ _ hmem
    exact absurd hmem (List.not_mem_nil _)
  | cons l L ih =>
    intro fs0 hsub hnd hLext hm hmem
    rw [List.foldl_cons]
    by_cases hl : l = m.path
    · subst hl
      have hread : fs0.readLines m.path = some m.lines := by
        unfold FS.readLines
        rw [lookup_eq_of_mem hnd hm]
        rfl
      have hproc : processMetadataFile fs0 m.path =
          ((if fs0.fileExists ((parseMeta m.lines).1) then
              fs0.deleteFile ((parseMeta m.lines).1) else fs0).deleteFile m.path) := by
        unfold processMetadataFile
        rw [hread]
        dsimp only
        rw [if_neg hstatus, if_neg hvp]
      have hv1 : (processMetadataFile fs0 m.path).fileExists ((parseMeta m.lines).1) = false := by
        rw [hproc]
        by_cases hex : fs0.fileExists ((parseMeta m.lines).1) = true
        · rw [if_pos hex]
          exact fileExists_false_of_subset
            (fun e he => (mem_deleteFile.mp he).1)
            (fileExists_deleteFile_self fs0 _)
        · rw [if_neg hex]
          rw [Bool.not_eq_true] at hex
          exact fileExists_false_of_subset (fun e he => (mem_deleteFile.mp he).1) hex
      have hm1 : (processMetadataFile fs0 m.path).fileExists m.path = false := by
        rw [hproc]
        exact fileExists_deleteFile_self _ _
      constructor
      · exact fileExists_false_of_subset
          (fun e he => (foldl_process_sublist L _).subset he) hv1
      · exact fileExists_false_of_subset
          (fun e he => (foldl_process_sublist L _).subset he) hm1
    · have hm' : m ∈ (processMetadataFile fs0 l).files := by
        apply mem_processMetadataFile_of_ne hm (fun hEq => hl hEq.symm) ?_ hext
        intro lns hr
        rcases readLines_some hr with ⟨e, hel, hepath, helines⟩
        have hLmeta : hasExt l ".meta" = true := hLext l (List.mem_cons_self _ _)
        have hwfe := hwf e (hsub e hel) (by rw [hepath]; exact hLmeta)
        rw [helines] at hwfe
        exact hwfe
      have hmem' : m.path ∈ L := by
        rcases List.mem_cons.mp hmem with hEq | hmem2
        · exact absurd hEq.symm hl
        · exact hmem2
      exact ih (processMetadataFile fs0 l)
        (fun e he => hsub e ((processMetadataFile_sublist fs0 l).subset he))
        (pathsNodup_of_sublist (processMetadataFile_sublist fs0 l) hnd)
        (fun l' hl' => hLext l' (List.mem_cons_of_mem _ hl'))
        hm' hmem'

/-! ### The claims -/

/-- C1 counterexample: the retention manager has no guard for the active
session's artifact — when the current session's file is on disk and among the
oldest, a cleanup run deletes it. -/
theorem C1_retention_counterexample :
    handlerKeepOne.bIsRecording = true ∧
    fsTwoVids.fileExists handlerKeepOne.CurrentSessionVideoPath = true ∧
    (cleanupOldVideos handlerKeepOne.MaxVideosToKeep fsTwoVids).fileExists
      handlerKeepOne.CurrentSessionVideoPath = false := by
  have h1 : fsTwoVids.findFilesRecursively crashVideoDir ".mp4" =
      ["Saved/SentryCrashVideos/old.mp4", "Saved/SentryCrashVideos/new.mp4"] := by rfl
  refine ⟨rfl, rfl, ?_⟩
  rw [show handlerKeepOne.MaxVideosToKeep = 1 from rfl,
    cleanup_eq_of_gt (by rfl) (by rw [h1]; decide), h1]
  rfl

/-- C1 (amended): a retention run deletes at most `count − maxToKeep` files,
and it deletes nothing that was not on disk — in particular the active
session's artifact survives whenever it is not on disk at cleanup time (the
state the controller guarantees at the only call site). -/
theorem C1_retention_amended (k : ℤ) (fs : FS) (h : Handler) (hnd : fs.pathsNodup) :
    fs.files.length ≤ (cleanupOldVideos k fs).files.length +
      ((((fs.findFilesRecursively crashVideoDir ".mp4").length : ℤ) - k).toNat) ∧
    (fs.fileExists h.CurrentSessionVideoPath = false →
      (cleanupOldVideos k fs).fileExists h.CurrentSessionVideoPath = false) := by
  constructor
  · cases hd : fs.dirExists crashVideoDir
    · rw [cleanup_eq_of_nodir hd]
      exact Nat.le_add_right _ _
    · by_cases hle : ((fs.findFilesRecursively crashVideoDir ".mp4").length : ℤ) ≤ k
      · rw [cleanup_eq_of_le hle]
        exact Nat.le_add_right _ _
      · rw [cleanup_eq_of_gt hd (not_le.mp hle)]
        have hlen := length_foldl_deleteFile
          (((fs.findFilesRecursively crashVideoDir ".mp4").insertionSort
            (fun a b => fs.getTimeStamp a ≤ fs.getTimeStamp b)).take
            ((((fs.findFilesRecursively crashVideoDir ".mp4").length : ℤ) - k).toNat)) fs hnd
        have htake := List.length_take_le
          ((((fs.findFilesRecursively crashVideoDir ".mp4").length : ℤ) - k).toNat)
          ((fs.findFilesRecursively crashVideoDir ".mp4").insertionSort
            (fun a b => fs.getTimeStamp a ≤ fs.getTimeStamp b))
        omega
  · intro hfe
    exact fileExists_false_of_subset (fun e he => (cleanup_sublist k fs).subset he) hfe

/-- Witness for the amended C1: a concrete run with all three videos kept. -/
theorem C1_retention_amended_witness :
    fsTwoVids.pathsNodup ∧
    (fsTwoVids.fileExists "Saved/SentryCrashVideos/absent.mp4" = false →
      (cleanupOldVideos 1 fsTwoVids).fileExists
        "Saved/SentryCrashVideos/absent.mp4" = false) ∧
    fsTwoVids.files.length ≤ (cleanupOldVideos 1 fsTwoVids).files.length +
      ((((fsTwoVids.findFilesRecursively crashVideoDir ".mp4").length : ℤ) - 1).toNat) :=
  ⟨by decide,
   (C1_retention_amended 1 fsTwoVids
      { CurrentSessionVideoPath := "Saved/SentryCrashVideos/absent.mp4" }
      (by decide)).2,
   (C1_retention_amended 1 fsTwoVids
      { CurrentSessionVideoPath := "Saved/SentryCrashVideos/absent.mp4" }
      (by decide)).1⟩

/-- C2 counterexample: a `Start` that fails before the recorder confirms (the
recorder refuses to start) does leave session residue — the handler's
`CurrentSessionVideoPath` is changed from empty to the freshly generated
session path, refuting "no session residue remains". -/
theorem C2_start_failure_counterexample :
    ({} : Handler).bIsRecording = false ∧
    (startContinuousRecording envRefused {} worldEmptyDir {}).1 = false ∧
    ({} : Handler).CurrentSessionVideoPath = "" ∧
    ((startContinuousRecording envRefused {} worldEmptyDir {}).2.1).CurrentSessionVideoPath =
      "Saved/SentryCrashVideos/crash_video_T.mp4" := by
  decide

/-- C2 (amended): any `Start` failure before the recorder confirms leaves the
controller at Idle (`bIsRecording = false`) and writes no file — in particular
no journal entry; however in-memory residue (the generated session path and
the clamped config) may remain on the late failure paths. -/
theorem C2_start_failure_amended (env : Env) (h : Handler) (w : World)
    (cfg : FCrashVideoConfig)
    (hb : h.bIsRecording = false)
    (hfail : (startContinuousRecording env h w cfg).1 = false) :
    ((startContinuousRecording env h w cfg).2.1).bIsRecording = false ∧
    ((startContinuousRecording env h w cfg).2.2).fs.files = w.fs.files := by
  rw [start_ret] at hfail
  have hd1 : (ensureCrashVideoDir env (stopUnrelatedRecording w)).1 =
      (w.fs.dirExists crashVideoDir || env.mkdirOk) := by
    rw [ensureDir_fst, stopUnrelated_fs]
  have hfiles : ((ensureCrashVideoDir env (stopUnrelatedRecording w)).2).fs.files =
      w.fs.files := by
    rw [ensureDir_files, stopUnrelated_fs]
  cases hsase : env.sentryAvailable && env.sentryEnabled
  · simp [startContinuousRecording, hb, hsase]
  · cases hra : env.recorderAvailable
    · simp [startContinuousRecording, hb, hsase, hra]
    · cases hdm : w.fs.dirExists crashVideoDir || env.mkdirOk
      · simp [startContinuousRecording, hb, hsase, hra, hd1, hdm, hfiles]
      · cases hro : env.recorderStartOk
        · simp [startContinuousRecording, hb, hsase, hra, hd1, hdm, hro,
            invokeStartRecording, hfiles]
        · exfalso
          simp [hb, hsase, hra, hdm, hro] at hfail

/-- Witness for the amended C2 on the recorder-refusal path. -/
theorem C2_start_failure_amended_witness :
    ((startContinuousRecording envRefused {} worldEmptyDir {}).2.1).bIsRecording = false ∧
    ((startContinuousRecording envRefused {} worldEmptyDir {}).2.2).fs.files =
      worldEmptyDir.fs.files :=
  C2_start_failure_amended envRefused {} worldEmptyDir {} rfl (by decide)

/-- C3: after a successful `CaptureAndAttachVideo` (recorder stopped, artifact
verified non-empty, attachment added), the handler still reports recording:
`bIsRecording` is untouched, the file system — including the
`Status=RECORDING` journal entry — is unchanged, and a subsequent
`StartContinuousRecording` fails as already-active. -/
theorem C3_capture_leaves_recording (env env2 : Env) (h : Handler) (w : World)
    (cfg2 : FCrashVideoConfig)
    (hrec : h.bIsRecording = true) (hra : env.recorderAvailable = true)
    (hact : w.recorderActive = true)
    (hpath : env.lastRecordingFilepath ≠ "")
    (hex : w.fs.fileExists env.lastRecordingFilepath = true)
    (hsize : 0 < w.fs.fileSize env.lastRecordingFilepath)
    (hsa : env.sentryAvailable = true) (hse : env.sentryEnabled = true)
    (hatt : env.attachmentCreateOk = true)
    (hmeta : w.fs.fileExists (h.metadataFilePath env) = true) :
    (captureAndAttachVideo env h w).1 = env.lastRecordingFilepath ∧
    ((captureAndAttachVideo env h w).2.1) = h ∧
    ((captureAndAttachVideo env h w).2.2).fs = w.fs ∧
    ((captureAndAttachVideo env h w).2.2).fs.fileExists (h.metadataFilePath env) = true ∧
    (startContinuousRecording env2 (captureAndAttachVideo env h w).2.1
      (captureAndAttachVideo env h w).2.2 cfg2).1 = false := by
  have hfin : finalizeAndSaveVideo env w =
      (env.lastRecordingFilepath, { w with recorderActive := false }) := by
    simp [finalizeAndSaveVideo, hra, hact, hex, hsize]
  have hcap : captureAndAttachVideo env h w =
      (env.lastRecordingFilepath, h,
        { w with recorderActive := false,
                 attachments := env.lastRecordingFilepath :: w.attachments,
                 bridgeCalls := env.lastRecordingFilepath :: w.bridgeCalls }) := by
    simp [captureAndAttachVideo, hrec, hfin, attachVideoToSentry, hpath, hsa, hse, hatt, hex]
  refine ⟨by rw [hcap], by rw [hcap], by rw [hcap], ?_, ?_⟩
  · rw [hcap]
    exact hmeta
  · rw [start_ret, hcap, hrec]
    rfl

/-- Witness for C3 at a concrete successful capture. -/
theorem C3_capture_leaves_recording_witness :
    (captureAndAttachVideo envCap handlerRecording worldCap).1 =
      envCap.lastRecordingFilepath ∧
    ((captureAndAttachVideo envCap handlerRecording worldCap).2.1) = handlerRecording ∧
    ((captureAndAttachVideo envCap handlerRecording worldCap).2.2).fs = worldCap.fs ∧
    ((captureAndAttachVideo envCap handlerRecording worldCap).2.2).fs.fileExists
      (handlerRecording.metadataFilePath envCap) = true ∧
    (startContinuousRecording {} (captureAndAttachVideo envCap handlerRecording worldCap).2.1
      (captureAndAttachVideo envCap handlerRecording worldCap).2.2 {}).1 = false :=
  C3_capture_leaves_recording envCap {} handlerRecording worldCap {} rfl rfl rfl
    (by decide) (by decide) (by decide) rfl rfl rfl (by decide)

/-- C4: a `StartContinuousRecording` call made while the handler is already
recording returns failure and leaves the handler state and the whole world
(journal entry, artifact paths, recorder, scope) untouched. -/
theorem C4_start_while_recording (env : Env) (h : Handler) (w : World)
    (cfg : FCrashVideoConfig) (hrec : h.bIsRecording = true) :
    startContinuousRecording env h w cfg = (false, h, w) := by
  simp [startContinuousRecording, hrec]

/-- Witness for C4 at a concrete recording handler. -/
theorem C4_start_while_recording_witness :
    startContinuousRecording {} handlerRecording worldEmptyDir {} =
      (false, handlerRecording, worldEmptyDir) :=
  C4_start_while_recording {} handlerRecording worldEmptyDir {} rfl

/-- C5: with the artifact directory present, a positive cap and distinct
modification times, retention pruning deletes nothing when `count ≤ maxToKeep`
and otherwise deletes exactly the `count − maxToKeep` oldest artifacts —
every deleted artifact is strictly older than every kept one, non-video files
are untouched, and nothing is created. -/
theorem C5_retention_prune_exact (k : ℤ) (fs : FS)
    (hnd : fs.pathsNodup) (hk : 1 ≤ k)
    (hdir : fs.dirExists crashVideoDir = true)
    (hinj : ((fs.findFilesRecursively crashVideoDir ".mp4").map fs.getTimeStamp).Nodup) :
    ((((fs.findFilesRecursively crashVideoDir ".mp4").length : ℤ) ≤ k →
        cleanupOldVideos k fs = fs) ∧
     (k < ((fs.findFilesRecursively crashVideoDir ".mp4").length : ℤ) →
        ((((fs.findFilesRecursively crashVideoDir ".mp4").filter
            (fun p => !((cleanupOldVideos k fs).fileExists p))).length : ℤ) =
          ((fs.findFilesRecursively crashVideoDir ".mp4").length : ℤ) - k ∧
        (∀ d ∈ (fs.findFilesRecursively crashVideoDir ".mp4").filter
            (fun p => !((cleanupOldVideos k fs).fileExists p)),
         ∀ q ∈ (fs.findFilesRecursively crashVideoDir ".mp4").filter
            (fun p => (cleanupOldVideos k fs).fileExists p),
         fs.getTimeStamp d < fs.getTimeStamp q) ∧
        (∀ e ∈ fs.files, e.path ∉ fs.findFilesRecursively crashVideoDir ".mp4" →
          e ∈ (cleanupOldVideos k fs).files) ∧
        (∀ e ∈ (cleanupOldVideos k fs).files, e ∈ fs.files)))) := by
  refine ⟨fun hle => cleanup_eq_of_le hle, fun hkn => ?_⟩
  have hcl := cleanup_eq_of_gt hdir hkn
  set vids := fs.findFilesRecursively crashVideoDir ".mp4" with hvids
  set r : String → String → Prop :=
    fun a b => fs.getTimeStamp a ≤ fs.getTimeStamp b with hrdef
  set sorted := vids.insertionSort r with hsorteddef
  set m := (((vids.length : ℤ)) - k).toNat with hmdef
  set D := sorted.take m with hDdef
  set R := sorted.drop m with hRdef
  haveI : IsTotal String r := ⟨fun a b => le_total _ _⟩
  haveI : IsTrans String r := ⟨fun a b c hab hbc => le_trans hab hbc⟩
  have hperm : sorted.Perm vids := List.perm_insertionSort r vids
  have hsorted : List.Sorted r sorted := List.sorted_insertionSort r vids
  have hDR : D ++ R = sorted := List.take_append_drop m sorted
  have hvnd : vids.Nodup := findFiles_nodup hnd _ _
  have hsnd : sorted.Nodup := hperm.nodup_iff.mpr hvnd
  have hand := List.nodup_append.mp (hDR ▸ hsnd)
  have hdisj : D.Disjoint R := hand.2.2
  have hmemD : ∀ p, p ∈ D → p ∈ vids :=
    fun p hp => hperm.subset ((List.take_sublist m sorted).subset hp)
  have hkey : ∀ p ∈ vids, ((cleanupOldVideos k fs).fileExists p = true ↔ p ∉ D) := by
    intro p hp
    rw [hcl]
    rw [show (((vids.insertionSort r).take m).foldl
        (fun acc q => acc.deleteFile q) fs) =
        (D.foldl (fun acc q => acc.deleteFile q) fs) from rfl]
    rw [fileExists_foldl_deleteFile]
    constructor
    · exact fun hh => hh.2
    · intro hnin
      exact ⟨fileExists_of_mem_findFiles hp, hnin⟩
  have hfilter_del : vids.filter (fun p => !((cleanupOldVideos k fs).fileExists p)) =
      vids.filter (fun p => decide (p ∈ D)) := by
    apply List.filter_congr
    intro p hp
    have hk2 := hkey p hp
    by_cases hpD : p ∈ D
    · have hdec : decide (p ∈ D) = true := decide_eq_true hpD
      cases hex : (cleanupOldVideos k fs).fileExists p
      · simp [hdec]
      · exact absurd hpD (hk2.mp hex)
    · have hdec : decide (p ∈ D) = false := decide_eq_false hpD
      cases hex : (cleanupOldVideos k fs).fileExists p
      · exact absurd (hk2.mpr hpD) (by simp [hex])
      · simp [hdec]
  have hmle : m ≤ sorted.length := by
    rw [hperm.length_eq]
    exact Int.toNat_le.mpr (by omega)
  have hDlen : D.length = m := by
    rw [hDdef, List.length_take]
    exact min_eq_left hmle
  have hfd : (vids.filter (fun p => decide (p ∈ D))).Perm
      ((D ++ R).filter (fun p => decide (p ∈ D))) :=
    (hperm.symm.trans (hDR ▸ List.Perm.refl sorted)).filter _ |>.symm.symm
  have hDfull : D.filter (fun p => decide (p ∈ D)) = D :=
    List.filter_eq_self.mpr (fun x hx => decide_eq_true hx)
  have hRnil : R.filter (fun p => decide (p ∈ D)) = [] :=
    List.filter_eq_nil_iff.mpr (fun x hx hmem =>
      hdisj (of_decide_eq_true hmem) hx)
  have hdel_len : (vids.filter (fun p => !((cleanupOldVideos k fs).fileExists p))).length = m := by
    rw [hfilter_del]
    have := hfd.length_eq
    rw [List.filter_append, hDfull, hRnil, List.length_append, List.length_nil] at this
    rw [this, hDlen]
    omega
  refine ⟨?_, ?_, ?_, ?_⟩
  · rw [hdel_len, hmdef]
    rw [Int.toNat_of_nonneg (by omega)]
  · intro d hd q hq
    rw [List.mem_filter] at hd hq
    have hdD : d ∈ D := by
      by_contra hdD
      have := (hkey d hd.1).mpr hdD
      rw [this] at hd
      simp at hd
    have hqD : q ∉ D := (hkey q hq.1).mp hq.2
    have hqR : q ∈ R := by
      have hq_sorted : q ∈ sorted := hperm.symm.subset hq.1
      rw [← hDR] at hq_sorted
      rcases List.mem_append.mp hq_sorted with hl | hr
      · exact absurd hl hqD
      · exact hr
    have hrel : r d q := (List.pairwise_append.mp (hDR ▸ hsorted)).2.2 d hdD q hqR
    have hne : d ≠ q := fun hEq => hdisj hdD (hEq ▸ hqR)
    exact lt_of_le_of_ne hrel
      (fun hEq => hne (List.inj_on_of_nodup_map hinj hd.1 hq.1 hEq))
  · intro e he hne
    rw [hcl]
    apply mem_foldl_deleteFile.mpr
    exact ⟨he, fun hmem => hne (hmemD e.path hmem)⟩
  · intro e he
    exact (cleanup_sublist k fs).subset he

/-- Witness for C5: pruning three artifacts with cap 2 deletes exactly one. -/
theorem C5_retention_prune_exact_witness :
    fsThreeVids.pathsNodup ∧ (1 : ℤ) ≤ 2 ∧
    fsThreeVids.dirExists crashVideoDir = true ∧
    ((fsThreeVids.findFilesRecursively crashVideoDir ".mp4").map
      fsThreeVids.getTimeStamp).Nodup ∧
    (2 : ℤ) < ((fsThreeVids.findFilesRecursively crashVideoDir ".mp4").length : ℤ) ∧
    (((fsThreeVids.findFilesRecursively crashVideoDir ".mp4").filter
        (fun p => !((cleanupOldVideos 2 fsThreeVids).fileExists p))).length : ℤ) =
      ((fsThreeVids.findFilesRecursively crashVideoDir ".mp4").length : ℤ) - 2 := by
  have h1 : fsThreeVids.findFilesRecursively crashVideoDir ".mp4" =
      ["Saved/SentryCrashVideos/a.mp4", "Saved/SentryCrashVideos/b.mp4",
       "Saved/SentryCrashVideos/c.mp4"] := by rfl
  exact ⟨by decide, by decide, by rfl, by rw [h1]; decide, by rw [h1]; decide,
    (((C5_retention_prune_exact 2 fsThreeVids (by decide) (by decide) (by rfl)
      (by rw [h1]; decide)).2) (by rw [h1]; decide)).1⟩

/-- C6: whenever `Start` reaches the recorder, the video bitrate handed to
`StartRecording` is exactly `2000000 + preset/100 * 8000000` for every
in-range quality preset (float arithmetic modelled exactly over `ℚ`). -/
theorem C6_bitrate_linear (env : Env) (h : Handler) (w : World) (cfg : FCrashVideoConfig)
    (hb : h.bIsRecording = false) (hsa : env.sentryAvailable = true)
    (hse : env.sentryEnabled = true) (hra : env.recorderAvailable = true)
    (hdir : w.fs.dirExists crashVideoDir = true)
    (hq0 : 0 ≤ cfg.QualityPreset) (hq1 : cfg.QualityPreset ≤ 100) :
    ((startContinuousRecording env h w cfg).2.2).recorderStartBitrates =
      (2000000 + (cfg.QualityPreset : ℚ) / 100 * 8000000) :: w.recorderStartBitrates := by
  have hcq : FMath.Clamp cfg.QualityPreset 0 100 = cfg.QualityPreset :=
    Clamp_eq_self _ _ _ hq0 hq1
  have hval : videoBitrate cfg.QualityPreset =
      2000000 + (cfg.QualityPreset : ℚ) / 100 * 8000000 := by
    unfold videoBitrate FMath.Lerp
    ring_nf
  have hsase : (env.sentryAvailable && env.sentryEnabled) = true := by
    rw [hsa, hse]
    rfl
  have hd1 : (ensureCrashVideoDir env (stopUnrelatedRecording w)).1 = true := by
    rw [ensureDir_fst, stopUnrelated_fs, hdir]
    rfl
  have hd2 : (ensureCrashVideoDir env (stopUnrelatedRecording w)).2 =
      stopUnrelatedRecording w :=
    ensureDir_snd_of_dir _ _ (by rw [stopUnrelated_fs]; exact hdir)
  cases hro : env.recorderStartOk <;>
    simp [startContinuousRecording, hb, hsase, hra, hd1, hd2, hro,
      invokeStartRecording, startRecordingSuccess, stopUnrelated_bitrates,
      clampConfig, hcq, hval]

/-- Witness for C6 at the upper endpoint: preset 100 yields exactly 10 Mbps. -/
theorem C6_bitrate_linear_witness :
    ((startContinuousRecording {} {} worldEmptyDir
        { QualityPreset := 100 }).2.2).recorderStartBitrates =
      (2000000 + ((({ QualityPreset := 100 } : FCrashVideoConfig).QualityPreset : ℚ)) / 100 *
        8000000) :: worldEmptyDir.recorderStartBitrates ∧
    2000000 + ((100 : Int) : ℚ) / 100 * 8000000 = 10000000 :=
  ⟨C6_bitrate_linear {} {} worldEmptyDir { QualityPreset := 100 } rfl rfl rfl rfl
      (by decide) (by decide) (by decide),
   by norm_num⟩

/-- C7: a clean (non-crash) stop of an active session clears the recording
flag and deletes the journal entry derived from the session's video path. -/
theorem C7_clean_stop_removes_journal (env : Env) (h : Handler) (w : World)
    (hrec : h.bIsRecording = true) (hclean : h.bCrashDetected = false) :
    ((stopContinuousRecording env h w).1).bIsRecording = false ∧
    ((stopContinuousRecording env h w).2).fs.fileExists (h.metadataFilePath env) = false := by
  have hrem : ∀ fs', (removeCrashMetadataFile env
        { h with bIsRecording := false, bCrashDetected := false } fs').fileExists
      (h.metadataFilePath env) = false :=
    fun fs' => removeCrashMetadataFile_removes env
      { h with bIsRecording := false, bCrashDetected := false } fs'
  refine ⟨?_, ?_⟩ <;>
    cases hcond : env.recorderAvailable && w.recorderActive <;>
      simp [stopContinuousRecording, hrec, hclean, hcond, hrem]

/-- Witness for C7 at a concrete active session. -/
theorem C7_clean_stop_removes_journal_witness :
    ((stopContinuousRecording {} handlerRecording worldEmptyDir).1).bIsRecording = false ∧
    ((stopContinuousRecording {} handlerRecording worldEmptyDir).2).fs.fileExists
      (handlerRecording.metadataFilePath {}) = false :=
  C7_clean_stop_removes_journal {} handlerRecording worldEmptyDir rfl rfl

/-- C8: one run of the recovery scanner deletes, for every journal entry with
a non-`CRASH_RECORDED` status (in particular `Status=RECORDING`) whose
referenced video path names an existing file (whatever its size), both the
video file and the journal entry. -/
theorem C8_recovery_deletes_recording_entry (fs : FS) (m : FileEntry)
    (hnd : fs.pathsNodup)
    (hdir : fs.dirExists crashVideoDir = true)
    (hm : m ∈ fs.files)
    (hunder : isUnderDir crashVideoDir m.path = true)
    (hext : hasExt m.path ".meta" = true)
    (hstatus : (parseMeta m.lines).2.2 = "RECORDING")
    (hvp : (parseMeta m.lines).1 ≠ "")
    (_hvx : fs.fileExists ((parseMeta m.lines).1) = true)
    (hwf : wellFormedMetas fs) :
    (recoverPreviousCrashVideos fs).fileExists ((parseMeta m.lines).1) = false ∧
    (recoverPreviousCrashVideos fs).fileExists m.path = false := by
  have hLmem : m.path ∈ fs.findFilesRecursively crashVideoDir ".meta" :=
    mem_findFilesRecursively.mpr ⟨m, hm, rfl, hunder, hext⟩
  have hne : ¬((fs.findFilesRecursively crashVideoDir ".meta").length = 0) := by
    intro h0
    rw [List.length_eq_zero] at h0
    rw [h0] at hLmem
    exact absurd hLmem (List.not_mem_nil _)
  have hrec : recoverPreviousCrashVideos fs =
      (fs.findFilesRecursively crashVideoDir ".meta").foldl processMetadataFile fs := by
    unfold recoverPreviousCrashVideos
    rw [hdir]
    simp only [Bool.not_true, Bool.false_eq_true, if_false]
    rw [if_neg hne]
  rw [hrec]
  refine recover_loop fs m hwf (by rw [hstatus]; decide) hvp hext
    (fs.findFilesRecursively crashVideoDir ".meta") fs
    (fun e he => he) hnd ?_ hm hLmem
  intro l hl
  rcases mem_findFilesRecursively.mp hl with ⟨e, -, -, -, hx⟩
  exact hx

/-- Witness for C8 at the concrete leftover session. -/
theorem C8_recovery_deletes_recording_entry_witness :
    (recoverPreviousCrashVideos fsRecover).fileExists
      ((parseMeta metaEntryA.lines).1) = false ∧
    (recoverPreviousCrashVideos fsRecover).fileExists metaEntryA.path = false :=
  C8_recovery_deletes_recording_entry fsRecover metaEntryA (by decide) (by decide)
    (List.mem_cons_self _ _) (by decide) (by decide) (by decide) (by decide) (by decide)
    (by decide)

/-- C9: when the finalized artifact exists but has zero size, `FinalizeAndSave`
returns the empty (failure) result and `CaptureAndAttachVideo` neither invokes
the attachment bridge nor adds any scope attachment. -/
theorem C9_finalize_empty_artifact (env : Env) (h : Handler) (w : World)
    (hrec : h.bIsRecording = true) (hra : env.recorderAvailable = true)
    (hact : w.recorderActive = true)
    (hex : w.fs.fileExists env.lastRecordingFilepath = true)
    (hsize : w.fs.fileSize env.lastRecordingFilepath = 0) :
    (finalizeAndSaveVideo env w).1 = "" ∧
    (captureAndAttachVideo env h w).1 = "" ∧
    ((captureAndAttachVideo env h w).2.2).bridgeCalls = w.bridgeCalls ∧
    ((captureAndAttachVideo env h w).2.2).attachments = w.attachments := by
  have hfin : finalizeAndSaveVideo env w = ("", { w with recorderActive := false }) := by
    simp [finalizeAndSaveVideo, hra, hact, hex, hsize]
  refine ⟨by rw [hfin], ?_, ?_, ?_⟩ <;>
    simp [captureAndAttachVideo, hrec, hfin]

/-- Witness for C9 at a concrete zero-byte artifact. -/
theorem C9_finalize_empty_artifact_witness :
    (finalizeAndSaveVideo envEmptyOut worldEmptyOut).1 = "" ∧
    (captureAndAttachVideo envEmptyOut handlerRecording worldEmptyOut).1 = "" ∧
    ((captureAndAttachVideo envEmptyOut handlerRecording worldEmptyOut).2.2).bridgeCalls =
      worldEmptyOut.bridgeCalls ∧
    ((captureAndAttachVideo envEmptyOut handlerRecording worldEmptyOut).2.2).attachments =
      worldEmptyOut.attachments :=
  C9_finalize_empty_artifact envEmptyOut handlerRecording worldEmptyOut rfl rfl rfl
    (by decide) (by decide)

/-- C10: the success of `Start` never depends on the configuration values (an
out-of-range value is clamped, never rejected), and whenever the capability
checks pass the stored configuration is the clamped one, with all bounded
fields inside their ranges. -/
theorem C10_config_clamped (env : Env) (h : Handler) (w : World) (cfg : FCrashVideoConfig) :
    (∀ cfg', (startContinuousRecording env h w cfg).1 =
      (startContinuousRecording env h w cfg').1) ∧
    (h.bIsRecording = false → env.sentryAvailable = true → env.sentryEnabled = true →
      env.recorderAvailable = true →
      ((startContinuousRecording env h w cfg).2.1).CurrentConfig = clampConfig cfg ∧
      5 ≤ (clampConfig cfg).LastSecondsToRecord ∧ (clampConfig cfg).LastSecondsToRecord ≤ 600 ∧
      10 ≤ (clampConfig cfg).TargetFPS ∧ (clampConfig cfg).TargetFPS ≤ 120 ∧
      0 ≤ (clampConfig cfg).QualityPreset ∧ (clampConfig cfg).QualityPreset ≤ 100) := by
  constructor
  · intro cfg'
    rw [start_ret, start_ret]
  · intro hb hsa hse hra
    have hsec := Clamp_mem cfg.LastSecondsToRecord (5 : ℚ) 600 (by norm_num)
    have hfps := Clamp_mem cfg.TargetFPS (10 : Int) 120 (by norm_num)
    have hq := Clamp_mem cfg.QualityPreset (0 : Int) 100 (by norm_num)
    refine ⟨?_, hsec.1, hsec.2, hfps.1, hfps.2, hq.1, hq.2⟩
    have hsase : (env.sentryAvailable && env.sentryEnabled) = true := by
      rw [hsa, hse]
      rfl
    have hd1 : (ensureCrashVideoDir env (stopUnrelatedRecording w)).1 =
        (w.fs.dirExists crashVideoDir || env.mkdirOk) := by
      rw [ensureDir_fst, stopUnrelated_fs]
    cases hdm : w.fs.dirExists crashVideoDir || env.mkdirOk
    · simp [startContinuousRecording, hb, hsase, hra, hd1, hdm]
    · cases hro : env.recorderStartOk <;>
        simp [startContinuousRecording, hb, hsase, hra, hd1, hdm, hro]

/-- Witness for C10 at an all-out-of-range configuration. -/
theorem C10_config_clamped_witness :
    (startContinuousRecording {} {} worldEmptyDir cfgOutOfRange).1 =
      (startContinuousRecording {} {} worldEmptyDir {}).1 ∧
    ((startContinuousRecording {} {} worldEmptyDir cfgOutOfRange).2.1).CurrentConfig =
      clampConfig cfgOutOfRange ∧
    5 ≤ (clampConfig cfgOutOfRange).LastSecondsToRecord ∧
    (clampConfig cfgOutOfRange).LastSecondsToRecord ≤ 600 ∧
    10 ≤ (clampConfig cfgOutOfRange).TargetFPS ∧
    (clampConfig cfgOutOfRange).TargetFPS ≤ 120 ∧
    0 ≤ (clampConfig cfgOutOfRange).QualityPreset ∧
    (clampConfig cfgOutOfRange).QualityPreset ≤ 100 :=
  ⟨(C10_config_clamped {} {} worldEmptyDir cfgOutOfRange).1 {},
   ((C10_config_clamped {} {} worldEmptyDir cfgOutOfRange).2 rfl rfl rfl rfl)⟩

end SentryCrashVideo
